import Mathlib

/-!
Verification of the lexical front-end (tokenizer) of the `tl` scripting
language, shallowly embedded from `src/tokenizer.rs` and
`src/utils.rs`.  Rust `String`s / `&str`s are modelled as `List Char`
(the sequence of Unicode scalar values); the `Peekable<Chars>` cursor is
modelled by explicit state passing of the remaining character list;
`Result<T, String>` is modelled by `Except String T`.
-/

/-- The codepoint ranges (inclusive) of the characters having the
Unicode `Alphabetic` derived property or general category `N` (`Nd`,
`Nl`, `No`) — precisely the set accepted by Rust's
`char::is_alphanumeric`, which is `char::is_alphabetic ||
char::is_numeric`.  Generated from the Unicode Character Database,
version 14.0.0 (later Unicode versions assign further codepoints that
were unassigned — hence non-alphanumeric — in 14.0.0). -/
def unicodeAlphanumeric : List (Nat × Nat) :=
  [
  (48, 57), (65, 90), (97, 122), (170, 170),
  (178, 179), (181, 181), (185, 186), (188, 190),
  (192, 214), (216, 246), (248, 705), (710, 721),
  (736, 740), (748, 748), (750, 750), (837, 837),
  (880, 884), (886, 887), (890, 893), (895, 895),
  (902, 902), (904, 906), (908, 908), (910, 929),
  (931, 1013), (1015, 1153), (1162, 1327), (1329, 1366),
  (1369, 1369), (1376, 1416), (1456, 1469), (1471, 1471),
  (1473, 1474), (1476, 1477), (1479, 1479), (1488, 1514),
  (1519, 1522), (1552, 1562), (1568, 1623), (1625, 1641),
  (1646, 1747), (1749, 1756), (1761, 1768), (1773, 1788),
  (1791, 1791), (1808, 1855), (1869, 1969), (1984, 2026),
  (2036, 2037), (2042, 2042), (2048, 2071), (2074, 2092),
  (2112, 2136), (2144, 2154), (2160, 2183), (2185, 2190),
  (2208, 2249), (2260, 2271), (2275, 2281), (2288, 2363),
  (2365, 2380), (2382, 2384), (2389, 2403), (2406, 2415),
  (2417, 2435), (2437, 2444), (2447, 2448), (2451, 2472),
  (2474, 2480), (2482, 2482), (2486, 2489), (2493, 2500),
  (2503, 2504), (2507, 2508), (2510, 2510), (2519, 2519),
  (2524, 2525), (2527, 2531), (2534, 2545), (2548, 2553),
  (2556, 2556), (2561, 2563), (2565, 2570), (2575, 2576),
  (2579, 2600), (2602, 2608), (2610, 2611), (2613, 2614),
  (2616, 2617), (2622, 2626), (2631, 2632), (2635, 2636),
  (2641, 2641), (2649, 2652), (2654, 2654), (2662, 2677),
  (2689, 2691), (2693, 2701), (2703, 2705), (2707, 2728),
  (2730, 2736), (2738, 2739), (2741, 2745), (2749, 2757),
  (2759, 2761), (2763, 2764), (2768, 2768), (2784, 2787),
  (2790, 2799), (2809, 2812), (2817, 2819), (2821, 2828),
  (2831, 2832), (2835, 2856), (2858, 2864), (2866, 2867),
  (2869, 2873), (2877, 2884), (2887, 2888), (2891, 2892),
  (2902, 2903), (2908, 2909), (2911, 2915), (2918, 2927),
  (2929, 2935), (2946, 2947), (2949, 2954), (2958, 2960),
  (2962, 2965), (2969, 2970), (2972, 2972), (2974, 2975),
  (2979, 2980), (2984, 2986), (2990, 3001), (3006, 3010),
  (3014, 3016), (3018, 3020), (3024, 3024), (3031, 3031),
  (3046, 3058), (3072, 3075), (3077, 3084), (3086, 3088),
  (3090, 3112), (3114, 3129), (3133, 3140), (3142, 3144),
  (3146, 3148), (3157, 3158), (3160, 3162), (3165, 3165),
  (3168, 3171), (3174, 3183), (3192, 3198), (3200, 3203),
  (3205, 3212), (3214, 3216), (3218, 3240), (3242, 3251),
  (3253, 3257), (3261, 3268), (3270, 3272), (3274, 3276),
  (3285, 3286), (3293, 3294), (3296, 3299), (3302, 3311),
  (3313, 3314), (3328, 3340), (3342, 3344), (3346, 3386),
  (3389, 3396), (3398, 3400), (3402, 3404), (3406, 3406),
  (3412, 3427), (3430, 3448), (3450, 3455), (3457, 3459),
  (3461, 3478), (3482, 3505), (3507, 3515), (3517, 3517),
  (3520, 3526), (3535, 3540), (3542, 3542), (3544, 3551),
  (3558, 3567), (3570, 3571), (3585, 3642), (3648, 3654),
  (3661, 3661), (3664, 3673), (3713, 3714), (3716, 3716),
  (3718, 3722), (3724, 3747), (3749, 3749), (3751, 3769),
  (3771, 3773), (3776, 3780), (3782, 3782), (3789, 3789),
  (3792, 3801), (3804, 3807), (3840, 3840), (3872, 3891),
  (3904, 3911), (3913, 3948), (3953, 3969), (3976, 3991),
  (3993, 4028), (4096, 4150), (4152, 4152), (4155, 4169),
  (4176, 4253), (4256, 4293), (4295, 4295), (4301, 4301),
  (4304, 4346), (4348, 4680), (4682, 4685), (4688, 4694),
  (4696, 4696), (4698, 4701), (4704, 4744), (4746, 4749),
  (4752, 4784), (4786, 4789), (4792, 4798), (4800, 4800),
  (4802, 4805), (4808, 4822), (4824, 4880), (4882, 4885),
  (4888, 4954), (4969, 4988), (4992, 5007), (5024, 5109),
  (5112, 5117), (5121, 5740), (5743, 5759), (5761, 5786),
  (5792, 5866), (5870, 5880), (5888, 5907), (5919, 5939),
  (5952, 5971), (5984, 5996), (5998, 6000), (6002, 6003),
  (6016, 6067), (6070, 6088), (6103, 6103), (6108, 6108),
  (6112, 6121), (6128, 6137), (6160, 6169), (6176, 6264),
  (6272, 6314), (6320, 6389), (6400, 6430), (6432, 6443),
  (6448, 6456), (6470, 6509), (6512, 6516), (6528, 6571),
  (6576, 6601), (6608, 6618), (6656, 6683), (6688, 6750),
  (6753, 6772), (6784, 6793), (6800, 6809), (6823, 6823),
  (6847, 6848), (6860, 6862), (6912, 6963), (6965, 6979),
  (6981, 6988), (6992, 7001), (7040, 7081), (7084, 7141),
  (7143, 7153), (7168, 7222), (7232, 7241), (7245, 7293),
  (7296, 7304), (7312, 7354), (7357, 7359), (7401, 7404),
  (7406, 7411), (7413, 7414), (7418, 7418), (7424, 7615),
  (7655, 7668), (7680, 7957), (7960, 7965), (7968, 8005),
  (8008, 8013), (8016, 8023), (8025, 8025), (8027, 8027),
  (8029, 8029), (8031, 8061), (8064, 8116), (8118, 8124),
  (8126, 8126), (8130, 8132), (8134, 8140), (8144, 8147),
  (8150, 8155), (8160, 8172), (8178, 8180), (8182, 8188),
  (8304, 8305), (8308, 8313), (8319, 8329), (8336, 8348),
  (8450, 8450), (8455, 8455), (8458, 8467), (8469, 8469),
  (8473, 8477), (8484, 8484), (8486, 8486), (8488, 8488),
  (8490, 8493), (8495, 8505), (8508, 8511), (8517, 8521),
  (8526, 8526), (8528, 8585), (9312, 9371), (9398, 9471),
  (10102, 10131), (11264, 11492), (11499, 11502), (11506, 11507),
  (11517, 11517), (11520, 11557), (11559, 11559), (11565, 11565),
  (11568, 11623), (11631, 11631), (11648, 11670), (11680, 11686),
  (11688, 11694), (11696, 11702), (11704, 11710), (11712, 11718),
  (11720, 11726), (11728, 11734), (11736, 11742), (11744, 11775),
  (11823, 11823), (12293, 12295), (12321, 12329), (12337, 12341),
  (12344, 12348), (12353, 12438), (12445, 12447), (12449, 12538),
  (12540, 12543), (12549, 12591), (12593, 12686), (12690, 12693),
  (12704, 12735), (12784, 12799), (12832, 12841), (12872, 12879),
  (12881, 12895), (12928, 12937), (12977, 12991), (13312, 19903),
  (19968, 42124), (42192, 42237), (42240, 42508), (42512, 42539),
  (42560, 42606), (42612, 42619), (42623, 42735), (42775, 42783),
  (42786, 42888), (42891, 42954), (42960, 42961), (42963, 42963),
  (42965, 42969), (42994, 43013), (43015, 43047), (43056, 43061),
  (43072, 43123), (43136, 43203), (43205, 43205), (43216, 43225),
  (43250, 43255), (43259, 43259), (43261, 43306), (43312, 43346),
  (43360, 43388), (43392, 43442), (43444, 43455), (43471, 43481),
  (43488, 43518), (43520, 43574), (43584, 43597), (43600, 43609),
  (43616, 43638), (43642, 43710), (43712, 43712), (43714, 43714),
  (43739, 43741), (43744, 43759), (43762, 43765), (43777, 43782),
  (43785, 43790), (43793, 43798), (43808, 43814), (43816, 43822),
  (43824, 43866), (43868, 43881), (43888, 44010), (44016, 44025),
  (44032, 55203), (55216, 55238), (55243, 55291), (63744, 64109),
  (64112, 64217), (64256, 64262), (64275, 64279), (64285, 64296),
  (64298, 64310), (64312, 64316), (64318, 64318), (64320, 64321),
  (64323, 64324), (64326, 64433), (64467, 64829), (64848, 64911),
  (64914, 64967), (65008, 65019), (65136, 65140), (65142, 65276),
  (65296, 65305), (65313, 65338), (65345, 65370), (65382, 65470),
  (65474, 65479), (65482, 65487), (65490, 65495), (65498, 65500),
  (65536, 65547), (65549, 65574), (65576, 65594), (65596, 65597),
  (65599, 65613), (65616, 65629), (65664, 65786), (65799, 65843),
  (65856, 65912), (65930, 65931), (66176, 66204), (66208, 66256),
  (66273, 66299), (66304, 66339), (66349, 66378), (66384, 66426),
  (66432, 66461), (66464, 66499), (66504, 66511), (66513, 66517),
  (66560, 66717), (66720, 66729), (66736, 66771), (66776, 66811),
  (66816, 66855), (66864, 66915), (66928, 66938), (66940, 66954),
  (66956, 66962), (66964, 66965), (66967, 66977), (66979, 66993),
  (66995, 67001), (67003, 67004), (67072, 67382), (67392, 67413),
  (67424, 67431), (67456, 67461), (67463, 67504), (67506, 67514),
  (67584, 67589), (67592, 67592), (67594, 67637), (67639, 67640),
  (67644, 67644), (67647, 67669), (67672, 67702), (67705, 67742),
  (67751, 67759), (67808, 67826), (67828, 67829), (67835, 67867),
  (67872, 67897), (67968, 68023), (68028, 68047), (68050, 68099),
  (68101, 68102), (68108, 68115), (68117, 68119), (68121, 68149),
  (68160, 68168), (68192, 68222), (68224, 68255), (68288, 68295),
  (68297, 68324), (68331, 68335), (68352, 68405), (68416, 68437),
  (68440, 68466), (68472, 68497), (68521, 68527), (68608, 68680),
  (68736, 68786), (68800, 68850), (68858, 68903), (68912, 68921),
  (69216, 69246), (69248, 69289), (69291, 69292), (69296, 69297),
  (69376, 69415), (69424, 69445), (69457, 69460), (69488, 69505),
  (69552, 69579), (69600, 69622), (69632, 69701), (69714, 69743),
  (69745, 69749), (69762, 69816), (69826, 69826), (69840, 69864),
  (69872, 69881), (69888, 69938), (69942, 69951), (69956, 69959),
  (69968, 70002), (70006, 70006), (70016, 70079), (70081, 70084),
  (70094, 70106), (70108, 70108), (70113, 70132), (70144, 70161),
  (70163, 70196), (70199, 70199), (70206, 70206), (70272, 70278),
  (70280, 70280), (70282, 70285), (70287, 70301), (70303, 70312),
  (70320, 70376), (70384, 70393), (70400, 70403), (70405, 70412),
  (70415, 70416), (70419, 70440), (70442, 70448), (70450, 70451),
  (70453, 70457), (70461, 70468), (70471, 70472), (70475, 70476),
  (70480, 70480), (70487, 70487), (70493, 70499), (70656, 70721),
  (70723, 70725), (70727, 70730), (70736, 70745), (70751, 70753),
  (70784, 70849), (70852, 70853), (70855, 70855), (70864, 70873),
  (71040, 71093), (71096, 71102), (71128, 71133), (71168, 71230),
  (71232, 71232), (71236, 71236), (71248, 71257), (71296, 71349),
  (71352, 71352), (71360, 71369), (71424, 71450), (71453, 71466),
  (71472, 71483), (71488, 71494), (71680, 71736), (71840, 71922),
  (71935, 71942), (71945, 71945), (71948, 71955), (71957, 71958),
  (71960, 71989), (71991, 71992), (71995, 71996), (71999, 72002),
  (72016, 72025), (72096, 72103), (72106, 72151), (72154, 72159),
  (72161, 72161), (72163, 72164), (72192, 72242), (72245, 72254),
  (72272, 72343), (72349, 72349), (72368, 72440), (72704, 72712),
  (72714, 72758), (72760, 72766), (72768, 72768), (72784, 72812),
  (72818, 72847), (72850, 72871), (72873, 72886), (72960, 72966),
  (72968, 72969), (72971, 73014), (73018, 73018), (73020, 73021),
  (73023, 73025), (73027, 73027), (73030, 73031), (73040, 73049),
  (73056, 73061), (73063, 73064), (73066, 73102), (73104, 73105),
  (73107, 73110), (73112, 73112), (73120, 73129), (73440, 73462),
  (73648, 73648), (73664, 73684), (73728, 74649), (74752, 74862),
  (74880, 75075), (77712, 77808), (77824, 78894), (82944, 83526),
  (92160, 92728), (92736, 92766), (92768, 92777), (92784, 92862),
  (92864, 92873), (92880, 92909), (92928, 92975), (92992, 92995),
  (93008, 93017), (93019, 93025), (93027, 93047), (93053, 93071),
  (93760, 93846), (93952, 94026), (94031, 94087), (94095, 94111),
  (94176, 94177), (94179, 94179), (94192, 94193), (94208, 100343),
  (100352, 101589), (101632, 101640), (110576, 110579), (110581, 110587),
  (110589, 110590), (110592, 110882), (110928, 110930), (110948, 110951),
  (110960, 111355), (113664, 113770), (113776, 113788), (113792, 113800),
  (113808, 113817), (113822, 113822), (119520, 119539), (119648, 119672),
  (119808, 119892), (119894, 119964), (119966, 119967), (119970, 119970),
  (119973, 119974), (119977, 119980), (119982, 119993), (119995, 119995),
  (119997, 120003), (120005, 120069), (120071, 120074), (120077, 120084),
  (120086, 120092), (120094, 120121), (120123, 120126), (120128, 120132),
  (120134, 120134), (120138, 120144), (120146, 120485), (120488, 120512),
  (120514, 120538), (120540, 120570), (120572, 120596), (120598, 120628),
  (120630, 120654), (120656, 120686), (120688, 120712), (120714, 120744),
  (120746, 120770), (120772, 120779), (120782, 120831), (122624, 122654),
  (122880, 122886), (122888, 122904), (122907, 122913), (122915, 122916),
  (122918, 122922), (123136, 123180), (123191, 123197), (123200, 123209),
  (123214, 123214), (123536, 123565), (123584, 123627), (123632, 123641),
  (124896, 124902), (124904, 124907), (124909, 124910), (124912, 124926),
  (124928, 125124), (125127, 125135), (125184, 125251), (125255, 125255),
  (125259, 125259), (125264, 125273), (126065, 126123), (126125, 126127),
  (126129, 126132), (126209, 126253), (126255, 126269), (126464, 126467),
  (126469, 126495), (126497, 126498), (126500, 126500), (126503, 126503),
  (126505, 126514), (126516, 126519), (126521, 126521), (126523, 126523),
  (126530, 126530), (126535, 126535), (126537, 126537), (126539, 126539),
  (126541, 126543), (126545, 126546), (126548, 126548), (126551, 126551),
  (126553, 126553), (126555, 126555), (126557, 126557), (126559, 126559),
  (126561, 126562), (126564, 126564), (126567, 126570), (126572, 126578),
  (126580, 126583), (126585, 126588), (126590, 126590), (126592, 126601),
  (126603, 126619), (126625, 126627), (126629, 126633), (126635, 126651),
  (127232, 127244), (127280, 127305), (127312, 127337), (127344, 127369),
  (130032, 130041), (131072, 173791), (173824, 177976), (177984, 178205),
  (178208, 183969), (183984, 191456), (194560, 195101), (196608, 201546)]

/-- Model of Rust's `char::is_alphanumeric` (`tokenizer.rs:121` and
`:158`): an ASCII letter or digit, or — mirroring the ASCII fast path of
the Rust core implementation — a character above `\x7f` lying in the
Unicode alphabetic/numeric table. -/
def rustIsAlphanumeric (c : Char) : Bool :=
  c.isAlpha || c.isDigit ||
    (0x7f < c.toNat && unicodeAlphanumeric.any fun r => r.1 ≤ c.toNat && c.toNat ≤ r.2)

/-- The character class scanned by the word reader
(`tokenizer.rs:157-158`): `ch.is_alphanumeric() || ch == '_' || ch == '.'`. -/
def isWordChar (c : Char) : Bool :=
  rustIsAlphanumeric c || c = '_' || c = '.'

/-- Numeric value of a list of ASCII digit characters, most significant
first (the value computed by Rust's integer/float parsing on the digit
part). -/
def digitsToNat (s : List Char) : Nat :=
  s.foldl (fun acc c => 10 * acc + (c.toNat - 48)) 0

/-- Model of Rust's `str::parse::<u64>()` (`u64::from_str`): an optional
leading `+`, then one or more ASCII digits, and the value must fit in 64
bits; everything else (including overflow) is a parse error, modelled as
`none`. -/
def parseU64 (s : List Char) : Option Nat :=
  let digits := if s.head? = some '+' then s.tail else s
  if digits ≠ [] ∧ digits.all Char.isDigit then
    if digitsToNat digits < 2 ^ 64 then some (digitsToNat digits) else none
  else none

/-- Model of the IEEE-754 binary64 values produced by Rust's
`str::parse::<f64>()`.  Finite values are represented by the exact
rational value of the decimal text; the rounding of that rational to 53
bits of precision (and overflow of huge exponents to infinity) is not
modelled, since no claim depends on the rounded bit pattern, only on
which constructor results. -/
inductive F64 where
  | finite (q : ℚ)
  | inf (neg : Bool)
  | nan
deriving DecidableEq, Repr

/-- Model of Rust's `str::parse::<f64>()` (`f64::from_str`).  Grammar
(from the standard library documentation):
`Float ::= Sign? ( 'inf' | 'infinity' | 'nan' | Number )`,
`Number ::= Count '.'? Count? Exp? | '.' Count Exp?`,
`Exp ::= ('e' | 'E') Sign? Count`, `Count ::= Digit+`, with
`inf`/`infinity`/`nan` matched ASCII-case-insensitively.  Grammar-valid
input never fails (huge values round to infinity in Rust, a distinction
the `F64` model drops). -/
def parseF64 (s : List Char) : Option F64 :=
  if s = [] then none
  else
    let neg : Bool := s.head? = some '-'
    let body := if s.head? = some '+' ∨ s.head? = some '-' then s.tail else s
    let lb := body.map Char.toLower
    if lb = ['i', 'n', 'f'] ∨ lb = ['i', 'n', 'f', 'i', 'n', 'i', 't', 'y'] then
      some (F64.inf neg)
    else if lb = ['n', 'a', 'n'] then
      some F64.nan
    else
      let mantissa := body.takeWhile fun c => c ≠ 'e' ∧ c ≠ 'E'
      let expPart := body.dropWhile fun c => c ≠ 'e' ∧ c ≠ 'E'
      let intPart := mantissa.takeWhile Char.isDigit
      let rest1 := mantissa.dropWhile Char.isDigit
      let fracDigits : List Char := if rest1.head? = some '.' then rest1.tail else []
      let mantOk : Bool :=
        if rest1 = [] then !intPart.isEmpty
        else if rest1.head? = some '.' then
          (!intPart.isEmpty || !fracDigits.isEmpty) && fracDigits.all Char.isDigit
        else false
      let expDigits :=
        if expPart.tail.head? = some '+' ∨ expPart.tail.head? = some '-' then
          expPart.tail.tail
        else expPart.tail
      let expNeg : Bool := expPart.tail.head? = some '-'
      let expOk : Bool :=
        if expPart = [] then true
        else !expDigits.isEmpty && expDigits.all Char.isDigit
      let expVal : Int :=
        if expPart = [] then 0
        else if expNeg then -(digitsToNat expDigits : Int)
        else (digitsToNat expDigits : Int)
      if mantOk && expOk then
        some (F64.finite ((if neg then (-1 : ℚ) else 1) *
          (digitsToNat (intPart ++ fracDigits) : ℚ) *
          (10 : ℚ) ^ (expVal - (fracDigits.length : Int))))
      else none

/-- Model of Rust's `str::replace(pat, rep)`: replace every
non-overlapping occurrence of `pat`, scanning left to right.  The
patterns used by `handle_string_escapes` are all two characters long;
the degenerate empty pattern (which Rust treats specially) is unused
here and modelled as the identity. -/
def replaceAll (pat rep : List Char) : List Char → List Char
  | [] => []
  | c :: rest =>
    if h : (pat.isPrefixOf (c :: rest) && !pat.isEmpty) = true then
      rep ++ replaceAll pat rep ((c :: rest).drop pat.length)
    else
      c :: replaceAll pat rep rest
termination_by s => s.length
decreasing_by
  · rcases Bool.and_eq_true _ _ |>.mp h with ⟨-, h2⟩
    cases pat with
    | nil => simp at h2
    | cons p ps => simp only [List.length_drop, List.length_cons]; omega
  · simp only [List.length_cons]
    omega

/-- The replacement table of `handle_string_escapes` (`utils.rs:52-60`),
in source order: `\\`→`\`, `\"`→`"`, `\'`→`'`, `\n`→newline,
`\r`→carriage-return, `\t`→tab, `\0`→NUL. -/
def escapeRules : List (List Char × List Char) :=
  [(['\\', '\\'], ['\\']),
   (['\\', '"'], ['"']),
   (['\\', '\''], ['\'']),
   (['\\', 'n'], ['\n']),
   (['\\', 'r'], ['\r']),
   (['\\', 't'], ['\t']),
   (['\\', '0'], ['\x00'])]

/-- Model of `handle_string_escapes` (`utils.rs:50-67`): fold the
whole-string replacements over the rule table in order. -/
def handle_string_escapes (original : List Char) : List Char :=
  escapeRules.foldl (fun acc rule => replaceAll rule.1 rule.2 acc) original

/-- The token type (`tokenizer.rs:4-35`).  String payloads are
`List Char`; the `u64` payload of `Number` is a `Nat` (the parse
guarantees it is below `2 ^ 64`); the `f64` payload of `Float` is the
`F64` model. -/
inductive Token where
  | string (s : List Char)
  | number (n : Nat)
  | float (f : F64)
  | bool (b : Bool)
  | identifier (s : List Char)
  | «let»
  | «import»
  | plus
  | minus
  | multiply
  | slash
  | lparen
  | rparen
  | lbracket
  | rbracket
  | lbrace
  | rbrace
  | equals
deriving DecidableEq, Repr

/-- Whether a token is a `Number` token. -/
def Token.isNumber : Token → Bool
  | .number _ => true
  | _ => false

/-- The classification match of `tokenize_multi_char`
(`tokenizer.rs:164-179`): try `u64` parse, then `f64` parse, then the
exact strings `true`, `false`, `let`, `import`, else an identifier
holding the raw text.  The guard-plus-`unwrap` pairs of the source are
fused into a single `match` on the parse result; `classifyWordGuarded`
below keeps the guard structure explicit. -/
def classifyWord (value : List Char) : Token :=
  match parseU64 value with
  | some n => Token.number n
  | none =>
    match parseF64 value with
    | some q => Token.float q
    | none =>
      if value = ['t', 'r', 'u', 'e'] then Token.bool true
      else if value = ['f', 'a', 'l', 's', 'e'] then Token.bool false
      else if value = ['l', 'e', 't'] then Token.«let»
      else if value = ['i', 'm', 'p', 'o', 'r', 't'] then Token.«import»
      else Token.identifier value

/-- The classification match with the source's guard-then-`unwrap`
structure kept explicit: each arm re-runs the parse and unwraps it, so a
`none` result models a panic of `unwrap` (`tokenizer.rs:166-167`).
Claim C10 proves the panic is unreachable. -/
def classifyWordGuarded (value : List Char) : Option Token :=
  if (parseU64 value).isSome then (parseU64 value).map Token.number
  else if (parseF64 value).isSome then (parseF64 value).map Token.float
  else if value = ['t', 'r', 'u', 'e'] then some (Token.bool true)
  else if value = ['f', 'a', 'l', 's', 'e'] then some (Token.bool false)
  else if value = ['l', 'e', 't'] then some Token.«let»
  else if value = ['i', 'm', 'p', 'o', 'r', 't'] then some Token.«import»
  else some (Token.identifier value)

/-- Model of `tokenize_multi_char` (`tokenizer.rs:153-182`): consume the
maximal run of word characters from the cursor, classify it, and return
the produced tokens together with the remaining cursor. -/
def tokenize_multi_char (chars : List Char) : List Token × List Char :=
  ([classifyWord (chars.takeWhile isWordChar)], chars.dropWhile isWordChar)

/-- The scanning loop of `tokenize_string` (`tokenizer.rs:135-148`),
entered after the opening quote has been consumed: accumulate characters
verbatim until a closing `"` (which is consumed), returning the raw
content and the remaining cursor; exhaustion without a closing quote is
the unclosed-string error.  The accumulate-until-quote loop is expressed
as the split of the input at its first `"`. -/
def scanStringBody (chars : List Char) : Except String (List Char × List Char) :=
  match chars.dropWhile fun c => c ≠ '"' with
  | _ :: rest => .ok (chars.takeWhile fun c => c ≠ '"', rest)
  | [] => .error "Unclosed string literal"

/-- Model of `tokenize_string` (`tokenizer.rs:130-151`): called with the
cursor at the opening quote; consumes it, scans the body, and on success
wraps the escape-decoded content as a `String` token, returning it with
the remaining cursor.  An empty cursor (no opening quote to consume)
leaves the loop unentered and `closed` false, hence the same error. -/
def tokenize_string : List Char → Except String (Token × List Char)
  | [] => .error "Unclosed string literal"
  | _ :: rest =>
    match scanStringBody rest with
    | .ok (v, r) => .ok (Token.string (handle_string_escapes v), r)
    | .error e => .error e

/-- Model of `tokenize` (`tokenizer.rs:37-128`): the dispatch loop.
Whitespace is skipped; `//` starts a line comment skipped up to (not
including) the newline; `/` otherwise is `Slash`; the fixed bracket and
operator characters produce their tokens; `"` delegates to
`tokenize_string`; an alphanumeric-or-underscore character delegates to
`tokenize_multi_char`; any other character is the unexpected-token
error.  The `?`-propagation and `push`-then-continue of the Rust loop
become an explicit match on the sub-result followed by prepending the
produced token(s). -/
def tokenize : List Char → Except String (List Token)
  | [] => .ok []
  | ch :: rest =>
    if ch = ' ' ∨ ch = '\t' ∨ ch = '\n' then
      tokenize rest
    else if ch = '/' then
      if rest.head? = some '/' then
        tokenize (rest.tail.dropWhile fun c => c ≠ '\n')
      else
        match tokenize rest with
        | .ok ts => .ok (Token.slash :: ts)
        | .error e => .error e
    else if ch = '(' then
      match tokenize rest with
      | .ok ts => .ok (Token.lparen :: ts)
      | .error e => .error e
    else if ch = ')' then
      match tokenize rest with
      | .ok ts => .ok (Token.rparen :: ts)
      | .error e => .error e
    else if ch = '[' then
      match tokenize rest with
      | .ok ts => .ok (Token.lbracket :: ts)
      | .error e => .error e
    else if ch = ']' then
      match tokenize rest with
      | .ok ts => .ok (Token.rbracket :: ts)
      | .error e => .error e
    else if ch = '{' then
      match tokenize rest with
      | .ok ts => .ok (Token.lbrace :: ts)
      | .error e => .error e
    else if ch = '}' then
      match tokenize rest with
      | .ok ts => .ok (Token.rbrace :: ts)
      | .error e => .error e
    else if ch = '+' then
      match tokenize rest with
      | .ok ts => .ok (Token.plus :: ts)
      | .error e => .error e
    else if ch = '-' then
      match tokenize rest with
      | .ok ts => .ok (Token.minus :: ts)
      | .error e => .error e
    else if ch = '*' then
      match tokenize rest with
      | .ok ts => .ok (Token.multiply :: ts)
      | .error e => .error e
    else if ch = '=' then
      match tokenize rest with
      | .ok ts => .ok (Token.equals :: ts)
      | .error e => .error e
    else if ch = '"' then
      match hs : tokenize_string (ch :: rest) with
      | .ok (tok, rest') =>
        match tokenize rest' with
        | .ok ts => .ok (tok :: ts)
        | .error e => .error e
      | .error e => .error e
    else if hw : (rustIsAlphanumeric ch || ch = '_') = true then
      match tokenize ((tokenize_multi_char (ch :: rest)).2) with
      | .ok ts => .ok ((tokenize_multi_char (ch :: rest)).1 ++ ts)
      | .error e => .error e
    else
      .error (String.push "Unexpected token: " ch)
termination_by s => s.length
decreasing_by
  all_goals
    have hdw : ∀ (p : Char → Bool) (l : List Char),
        (l.dropWhile p).length ≤ l.length := by
      intro p l
      induction l with
      | nil => exact Nat.le_refl 0
      | cons a l ih =>
        rw [List.dropWhile_cons]
        split
        · exact Nat.le_trans ih (Nat.le_succ _)
        · exact Nat.le_refl _
    first
    | (simp only [List.length_cons]; omega)
    | (simp only [List.length_cons]
       have h2 : ∀ l : List Char, l.tail.length ≤ l.length := by
         intro l; cases l <;> simp
       exact Nat.lt_of_le_of_lt (Nat.le_trans (hdw _ _) (h2 _)) (by omega))
    | (have key : ∀ (s : List Char) (t : Token) (r : List Char),
           tokenize_string s = Except.ok (t, r) → r.length < s.length := by
         intro s t r h
         cases s with
         | nil => simp [tokenize_string] at h
         | cons c cs =>
           simp only [tokenize_string] at h
           cases hsb : scanStringBody cs with
           | error e => rw [hsb] at h; exact absurd h (by simp)
           | ok vr =>
             obtain ⟨v, rr⟩ := vr
             rw [hsb] at h
             simp only [Except.ok.injEq, Prod.mk.injEq] at h
             obtain ⟨-, hr⟩ := h
             subst hr
             simp only [scanStringBody] at hsb
             split at hsb
             · rename_i hd tl hdrop
               rw [Except.ok.injEq, Prod.mk.injEq] at hsb
               obtain ⟨-, hr2⟩ := hsb
               subst hr2
               have hle := hdw (fun c => decide (c ≠ '"')) cs
               rw [hdrop] at hle
               simp only [List.length_cons] at hle ⊢
               omega
             · exact absurd hsb (by simp)
       exact key _ _ _ hs)
    | (simp only [tokenize_multi_char, List.dropWhile_cons]
       rw [if_pos (by
         simp only [Bool.or_eq_true, decide_eq_true_eq] at hw
         simp only [isWordChar, Bool.or_eq_true, decide_eq_true_eq]
         tauto)]
       simp only [List.length_cons]
       exact Nat.lt_succ_of_le (hdw _ _))

/-- Single left-to-right decoding of one escape character, as described
by the spec (§4.4): the character following a backslash and the
character it decodes to, or `none` for an unrecognized sequence. -/
def decodeEscape : Char → Option Char
  | '\\' => some '\\'
  | '"' => some '"'
  | '\'' => some '\''
  | 'n' => some '\n'
  | 'r' => some '\r'
  | 't' => some '\t'
  | '0' => some '\x00'
  | _ => none

/-- The single left-to-right scan decoder described by the spec (§9 and
§4.4) for the refinement claim C2: each escape sequence is decoded
exactly once, an unrecognized backslash sequence is kept verbatim (both
characters, consumed together), and a trailing lone backslash is kept. -/
def scanEscapes : List Char → List Char
  | [] => []
  | [c] => [c]
  | x :: c :: rest =>
    if x = '\\' then
      match decodeEscape c with
      | some r => r :: scanEscapes rest
      | none => '\\' :: c :: scanEscapes rest
    else
      x :: scanEscapes (c :: rest)

/-- A single whole-string replacement pass specialized to a two-character
pattern `a b` and a one-character replacement `rep`: scan left to right
replacing non-overlapping occurrences.  This is the shape every rule of
`escapeRules` has; `replaceAll_pair` proves it agrees with the generic
`replaceAll`. -/
def replace2 (a b rep : Char) : List Char → List Char
  | [] => []
  | [x] => [x]
  | x :: y :: rest =>
    if x = a ∧ y = b then rep :: replace2 a b rep rest
    else x :: replace2 a b rep (y :: rest)

/-- The last six rules of `handle_string_escapes` (every rule except the
backslash rule), as specialized two-character replacement passes in
source order. -/
def seqRest (s : List Char) : List Char :=
  replace2 '\\' '0' '\x00' (replace2 '\\' 't' '\t' (replace2 '\\' 'r' '\r'
    (replace2 '\\' 'n' '\n' (replace2 '\\' '\'' '\'' (replace2 '\\' '"' '"' s)))))

/-- No two adjacent backslashes occur in the list (the domain on which
the whole-string substitution and the single scan agree, claim C2). -/
def noDoubleBackslash : List Char → Bool
  | [] => true
  | [_] => true
  | x :: y :: rest => !(x == '\\' && y == '\\') && noDoubleBackslash (y :: rest)

/-- Relational rendering of one iteration of the dispatch loop of
`tokenize`: `Step s t` holds when the loop, looking at cursor `s`,
consumes characters and continues with cursor `t` (error and
end-of-input states have no successor). -/
inductive Step : List Char → List Char → Prop where
  | ws {c : Char} {rest : List Char} :
      c = ' ' ∨ c = '\t' ∨ c = '\n' → Step (c :: rest) rest
  | comment {rest2 : List Char} :
      Step ('/' :: '/' :: rest2) (rest2.dropWhile fun c => c ≠ '\n')
  | slash {rest : List Char} :
      rest.head? ≠ some '/' → Step ('/' :: rest) rest
  | single {c : Char} {rest : List Char} :
      c ∈ ['(', ')', '[', ']', '{', '}', '+', '-', '*', '='] →
      Step (c :: rest) rest
  | str {rest v r : List Char} :
      scanStringBody rest = .ok (v, r) → Step ('"' :: rest) r
  | word {c : Char} {rest : List Char} :
      (rustIsAlphanumeric c || c = '_') = true →
      Step (c :: rest) ((c :: rest).dropWhile isWordChar)

/-- The dispatch loop, started on cursor `s`, at some iteration looks at
cursor `t` (reflexive-transitive closure of `Step`). -/
def Reaches : List Char → List Char → Prop :=
  Relation.ReflTransGen Step

/-- The inputs consisting solely of whitespace and/or line comments
(spec §8): empty, a whitespace character followed by such an input, or a
`//` comment whose skipped-to-newline remainder is such an input. -/
inductive WsComments : List Char → Prop where
  | nil : WsComments []
  | ws {c : Char} {rest : List Char} :
      c = ' ' ∨ c = '\t' ∨ c = '\n' → WsComments rest → WsComments (c :: rest)
  | comment {rest2 : List Char} :
      WsComments (rest2.dropWhile fun c => c ≠ '\n') →
      WsComments ('/' :: '/' :: rest2)

/-- One-step unfolding of the dispatch loop at a non-empty cursor. -/
theorem tokenize_cons (c : Char) (rest : List Char) :
    tokenize (c :: rest) =
      (if c = ' ' ∨ c = '\t' ∨ c = '\n' then
        tokenize rest
      else if c = '/' then
        if rest.head? = some '/' then
          tokenize (rest.tail.dropWhile fun x => x ≠ '\n')
        else
          match tokenize rest with
          | .ok ts => .ok (Token.slash :: ts)
          | .error e => .error e
      else if c = '(' then
        match tokenize rest with
        | .ok ts => .ok (Token.lparen :: ts)
        | .error e => .error e
      else if c = ')' then
        match tokenize rest with
        | .ok ts => .ok (Token.rparen :: ts)
        | .error e => .error e
      else if c = '[' then
        match tokenize rest with
        | .ok ts => .ok (Token.lbracket :: ts)
        | .error e => .error e
      else if c = ']' then
        match tokenize rest with
        | .ok ts => .ok (Token.rbracket :: ts)
        | .error e => .error e
      else if c = '{' then
        match tokenize rest with
        | .ok ts => .ok (Token.lbrace :: ts)
        | .error e => .error e
      else if c = '}' then
        match tokenize rest with
        | .ok ts => .ok (Token.rbrace :: ts)
        | .error e => .error e
      else if c = '+' then
        match tokenize rest with
        | .ok ts => .ok (Token.plus :: ts)
        | .error e => .error e
      else if c = '-' then
        match tokenize rest with
        | .ok ts => .ok (Token.minus :: ts)
        | .error e => .error e
      else if c = '*' then
        match tokenize rest with
        | .ok ts => .ok (Token.multiply :: ts)
        | .error e => .error e
      else if c = '=' then
        match tokenize rest with
        | .ok ts => .ok (Token.equals :: ts)
        | .error e => .error e
      else if c = '"' then
        match _hs : tokenize_string (c :: rest) with
        | .ok (tok, rest') =>
          match tokenize rest' with
          | .ok ts => .ok (tok :: ts)
          | .error e => .error e
        | .error e => .error e
      else if (rustIsAlphanumeric c || c = '_') = true then
        match tokenize ((tokenize_multi_char (c :: rest)).2) with
        | .ok ts => .ok ((tokenize_multi_char (c :: rest)).1 ++ ts)
        | .error e => .error e
      else
        .error (String.push "Unexpected token: " c)) := by
  rw [tokenize.eq_def]
  rfl

/-- Unfolding of `tokenize` at the end of input. -/
theorem tokenize_nil : tokenize [] = .ok [] := by
  simp [tokenize]

/-- Unfolding of `tokenize` at a whitespace character: skip it. -/
theorem tokenize_ws {c : Char} (rest : List Char) (h : c = ' ' ∨ c = '\t' ∨ c = '\n') :
    tokenize (c :: rest) = tokenize rest := by
  rw [tokenize_cons, if_pos h]

/-- Unfolding of `tokenize` at a `//` comment: skip to the newline. -/
theorem tokenize_comment (rest2 : List Char) :
    tokenize ('/' :: '/' :: rest2) = tokenize (rest2.dropWhile fun c => c ≠ '\n') := by
  rw [tokenize_cons, if_neg (by decide), if_pos rfl,
    if_pos (show ('/' :: rest2).head? = some '/' from rfl)]
  rfl

/-- Unfolding of `tokenize` at a `/` not followed by a second `/`. -/
theorem tokenize_slash {rest : List Char} (h : rest.head? ≠ some '/') :
    tokenize ('/' :: rest) =
      match tokenize rest with
      | .ok ts => .ok (Token.slash :: ts)
      | .error e => .error e := by
  rw [tokenize_cons, if_neg (by decide), if_pos rfl, if_neg h]

/-- Unfolding of `tokenize` at a `"` whose string literal scans successfully. -/
theorem tokenize_quote_ok {rest r : List Char} {tok : Token}
    (h : tokenize_string ('"' :: rest) = .ok (tok, r)) :
    tokenize ('"' :: rest) =
      match tokenize r with
      | .ok ts => .ok (tok :: ts)
      | .error e => .error e := by
  rw [tokenize_cons, if_neg (by decide), if_neg (by decide), if_neg (by decide),
    if_neg (by decide), if_neg (by decide), if_neg (by decide), if_neg (by decide),
    if_neg (by decide), if_neg (by decide), if_neg (by decide), if_neg (by decide),
    if_neg (by decide), if_pos rfl]
  split
  · rename_i tok' rest' heq
    rw [h, Except.ok.injEq, Prod.mk.injEq] at heq
    obtain ⟨h1, h2⟩ := heq
    subst h1
    subst h2
    rfl
  · rename_i e heq
    rw [h] at heq
    exact absurd heq (by simp)

/-- Unfolding of `tokenize` at a `"` whose string literal fails to scan. -/
theorem tokenize_quote_err {rest : List Char} {e : String}
    (h : tokenize_string ('"' :: rest) = .error e) :
    tokenize ('"' :: rest) = .error e := by
  rw [tokenize_cons, if_neg (by decide), if_neg (by decide), if_neg (by decide),
    if_neg (by decide), if_neg (by decide), if_neg (by decide), if_neg (by decide),
    if_neg (by decide), if_neg (by decide), if_neg (by decide), if_neg (by decide),
    if_neg (by decide), if_pos rfl]
  split
  · rename_i tok' rest' heq
    rw [h] at heq
    exact absurd heq (by simp)
  · rename_i e' heq
    rw [h, Except.error.injEq] at heq
    rw [heq]

/-- Unfolding of `tokenize` at an alphanumeric-or-underscore character:
delegate to the word reader. -/
theorem tokenize_word {c : Char} {rest : List Char}
    (hw : (rustIsAlphanumeric c || c = '_') = true) :
    tokenize (c :: rest) =
      match tokenize ((tokenize_multi_char (c :: rest)).2) with
      | .ok ts => .ok ((tokenize_multi_char (c :: rest)).1 ++ ts)
      | .error e => .error e := by
  rw [tokenize_cons,
    if_neg (by rintro (rfl | rfl | rfl) <;> exact absurd hw (by decide)),
    if_neg (by rintro rfl; exact absurd hw (by decide)),
    if_neg (by rintro rfl; exact absurd hw (by decide)),
    if_neg (by rintro rfl; exact absurd hw (by decide)),
    if_neg (by rintro rfl; exact absurd hw (by decide)),
    if_neg (by rintro rfl; exact absurd hw (by decide)),
    if_neg (by rintro rfl; exact absurd hw (by decide)),
    if_neg (by rintro rfl; exact absurd hw (by decide)),
    if_neg (by rintro rfl; exact absurd hw (by decide)),
    if_neg (by rintro rfl; exact absurd hw (by decide)),
    if_neg (by rintro rfl; exact absurd hw (by decide)),
    if_neg (by rintro rfl; exact absurd hw (by decide)),
    if_neg (by rintro rfl; exact absurd hw (by decide)),
    if_pos hw]

/-- Unfolding of `tokenize` at a character matched by no dispatch arm:
the unexpected-token error. -/
theorem tokenize_err {c : Char} (rest : List Char)
    (h1 : ¬(c = ' ' ∨ c = '\t' ∨ c = '\n')) (h2 : c ≠ '/') (h3 : c ≠ '(') (h4 : c ≠ ')')
    (h5 : c ≠ '[') (h6 : c ≠ ']') (h7 : c ≠ '{') (h8 : c ≠ '}') (h9 : c ≠ '+')
    (h10 : c ≠ '-') (h11 : c ≠ '*') (h12 : c ≠ '=') (h13 : c ≠ '"')
    (h14 : (rustIsAlphanumeric c || c = '_') = false) :
    tokenize (c :: rest) = .error (String.push "Unexpected token: " c) := by
  rw [tokenize_cons, if_neg h1, if_neg h2, if_neg h3, if_neg h4, if_neg h5, if_neg h6,
    if_neg h7, if_neg h8, if_neg h9, if_neg h10, if_neg h11, if_neg h12, if_neg h13,
    if_neg (by simp [h14])]

/-- ASCII digits are untouched by `Char.toLower`. -/
theorem digit_toLower {c : Char} (h : c.isDigit = true) : c.toLower = c := by
  simp only [Char.isDigit, Bool.and_eq_true, decide_eq_true_eq] at h
  obtain ⟨h1, h2⟩ := h
  have h2' : c.val.toNat ≤ 57 := UInt32.toNat_le_of_le (by decide) h2
  simp only [Char.toLower]
  rw [if_neg]
  rintro ⟨h3, h4⟩
  simp only [Char.toNat] at h3
  omega

/-- An ASCII digit is not any fixed non-digit character. -/
theorem digit_ne {c d : Char} (h : c.isDigit = true) (hd : d.isDigit = false) : c ≠ d := by
  rintro rfl
  rw [h] at hd
  cases hd

/-- ASCII digits are word characters. -/
theorem digit_isWordChar {c : Char} (h : c.isDigit = true) : isWordChar c = true := by
  simp [isWordChar, rustIsAlphanumeric, h]

/-- ASCII digits satisfy the word-reader entry guard. -/
theorem digit_alnum {c : Char} (h : c.isDigit = true) :
    (rustIsAlphanumeric c || c = '_') = true := by
  simp [rustIsAlphanumeric, h]

/-- `parseU64` on a non-empty all-digit list is the bounds-checked value. -/
theorem parseU64_digits {s : List Char} (hne : s ≠ [])
    (hd : ∀ c ∈ s, c.isDigit = true) :
    parseU64 s = if digitsToNat s < 2 ^ 64 then some (digitsToNat s) else none := by
  obtain ⟨c, rest, rfl⟩ := List.exists_cons_of_ne_nil hne
  have hplus : c ≠ '+' := digit_ne (hd c (by simp)) (by decide)
  simp only [parseU64]
  have hdig : (if (c :: rest).head? = some '+' then (c :: rest).tail else (c :: rest)) =
      c :: rest := by
    rw [if_neg]
    simp only [List.head?_cons, Option.some.injEq]
    exact hplus
  rw [hdig]
  rw [if_pos (show (c :: rest) ≠ [] ∧ (c :: rest).all Char.isDigit = true from
    ⟨by simp, by rw [List.all_eq_true]; intro x hx; exact hd x hx⟩)]

/-- Mapping `Char.toLower` over all-digit text changes nothing. -/
theorem map_toLower_digits {l : List Char} (hl : ∀ x ∈ l, x.isDigit = true) :
    l.map Char.toLower = l := by
  induction l with
  | nil => rfl
  | cons a t ih =>
    simp only [List.map_cons]
    rw [digit_toLower (hl a (by simp)), ih fun x hx => hl x (by simp [hx])]

/-- `parseF64` on a non-empty all-digit list succeeds with the exact
integer value (the model of Rust's grammar `Count`). -/
theorem parseF64_digits {s : List Char} (hne : s ≠ [])
    (hd : ∀ c ∈ s, c.isDigit = true) :
    parseF64 s = some (F64.finite (digitsToNat s : ℚ)) := by
  obtain ⟨c, rest, rfl⟩ := List.exists_cons_of_ne_nil hne
  have hc := hd c (by simp)
  simp only [parseF64]
  rw [if_neg (by simp)]
  have hbody : (if (c :: rest).head? = some '+' ∨ (c :: rest).head? = some '-' then
      (c :: rest).tail else (c :: rest)) = c :: rest := by
    rw [if_neg]
    simp only [List.head?_cons, Option.some.injEq]
    rintro (rfl | rfl) <;> exact absurd hc (by decide)
  rw [hbody]
  rw [map_toLower_digits hd]
  rw [if_neg (by
    rintro (h | h) <;>
      (simp only [List.cons.injEq] at h; obtain ⟨rfl, -⟩ := h; exact absurd hc (by decide)))]
  rw [if_neg (by
    intro h
    simp only [List.cons.injEq] at h
    obtain ⟨rfl, -⟩ := h
    exact absurd hc (by decide))]
  have hmant : ((c :: rest).takeWhile fun x => decide (x ≠ 'e' ∧ x ≠ 'E')) = c :: rest := by
    rw [List.takeWhile_eq_self_iff]
    intro x hx
    have hxd := hd x hx
    simp only [decide_eq_true_eq]
    exact ⟨digit_ne hxd (by decide), digit_ne hxd (by decide)⟩
  have hexp : ((c :: rest).dropWhile fun x => decide (x ≠ 'e' ∧ x ≠ 'E')) = [] := by
    rw [List.dropWhile_eq_nil_iff]
    intro x hx
    have hxd := hd x hx
    simp only [decide_eq_true_eq]
    exact ⟨digit_ne hxd (by decide), digit_ne hxd (by decide)⟩
  rw [hmant, hexp]
  have hint : (c :: rest).takeWhile Char.isDigit = c :: rest := by
    rw [List.takeWhile_eq_self_iff]
    intro x hx
    exact hd x hx
  have hrest1 : (c :: rest).dropWhile Char.isDigit = [] := by
    rw [List.dropWhile_eq_nil_iff]
    intro x hx
    exact hd x hx
  rw [hint, hrest1]
  have hneg : (decide ((c :: rest).head? = some '-')) = false := by
    simp only [List.head?_cons, Option.some.injEq, decide_eq_false_iff_not]
    exact digit_ne hc (by decide)
  rw [hneg]
  norm_num

/-- Any alphanumeric-or-underscore character is a word character (the
word reader is entered exactly on such heads). -/
theorem wordChar_of_alnum {c : Char} (h : (rustIsAlphanumeric c || c = '_') = true) :
    isWordChar c = true := by
  simp only [Bool.or_eq_true, decide_eq_true_eq] at h
  simp only [isWordChar, Bool.or_eq_true, decide_eq_true_eq]
  tauto

/-- A cursor made entirely of word characters (with a word-reader head)
is consumed as one word: the whole input is classified in one step. -/
theorem tokenize_full_word {c : Char} {rest : List Char}
    (hw : (rustIsAlphanumeric c || c = '_') = true)
    (hall : ∀ x ∈ c :: rest, isWordChar x = true) :
    tokenize (c :: rest) = .ok [classifyWord (c :: rest)] := by
  rw [tokenize_word hw]
  have ht : (c :: rest).takeWhile isWordChar = c :: rest :=
    List.takeWhile_eq_self_iff.mpr hall
  have hd : (c :: rest).dropWhile isWordChar = [] :=
    List.dropWhile_eq_nil_iff.mpr hall
  simp only [tokenize_multi_char, ht, hd, tokenize_nil, List.append_nil]

/-- All-digit text below the 64-bit bound classifies as `Number`. -/
theorem classifyWord_digits_small {s : List Char} (hne : s ≠ [])
    (hd : ∀ c ∈ s, c.isDigit = true) (hlt : digitsToNat s < 2 ^ 64) :
    classifyWord s = Token.number (digitsToNat s) := by
  simp only [classifyWord]
  rw [parseU64_digits hne hd, if_pos hlt]

/-- All-digit text at or above the 64-bit bound classifies as `Float`. -/
theorem classifyWord_digits_big {s : List Char} (hne : s ≠ [])
    (hd : ∀ c ∈ s, c.isDigit = true) (hge : ¬digitsToNat s < 2 ^ 64) :
    classifyWord s = Token.float (F64.finite (digitsToNat s : ℚ)) := by
  simp only [classifyWord]
  rw [parseU64_digits hne hd, if_neg hge, parseF64_digits hne hd]

/-- C1 (counterexample): the input of twenty ASCII digits spelling
`2 ^ 64` (`18446744073709551616`) — a text matching `^[0-9]+$` — is
tokenized as a single `Float` token, not a `Number` token, refuting the
claim's "never a Float ... with no restriction on the number of
digits". -/
theorem c1_counterexample :
    tokenize ['1', '8', '4', '4', '6', '7', '4', '4', '0', '7', '3', '7', '0', '9', '5',
        '5', '1', '6', '1', '6'] =
      .ok [Token.float (F64.finite 18446744073709551616)] ∧
    [Token.float (F64.finite 18446744073709551616)].all (fun t => !t.isNumber) = true := by
  constructor
  · have hd : ∀ c ∈ ['1', '8', '4', '4', '6', '7', '4', '4', '0', '7', '3', '7', '0', '9',
        '5', '5', '1', '6', '1', '6'], c.isDigit = true := by decide
    rw [tokenize_full_word (digit_alnum (hd '1' (by simp)))
      fun x hx => digit_isWordChar (hd x hx)]
    rw [classifyWord_digits_big (by simp) hd (by decide)]
    rw [show digitsToNat ['1', '8', '4', '4', '6', '7', '4', '4', '0', '7', '3', '7', '0',
      '9', '5', '5', '1', '6', '1', '6'] = 18446744073709551616 from by decide]
    norm_num
  · decide

/-- C1 (amended): for every non-empty input consisting solely of ASCII
digits whose numeric value fits in an unsigned 64-bit integer, `tokenize`
returns the single token `Number` carrying that value (never `Float`,
never `Identifier`).  The original claim's "no restriction on the number
of digits" fails: values of `2 ^ 64` or more fall through to the float
parse (see `c1_counterexample` and claim C3). -/
theorem c1_digits_number (s : List Char) (hne : s ≠ [])
    (hd : ∀ c ∈ s, c.isDigit = true) (hlt : digitsToNat s < 2 ^ 64) :
    tokenize s = .ok [Token.number (digitsToNat s)] := by
  obtain ⟨c, rest, rfl⟩ := List.exists_cons_of_ne_nil hne
  rw [tokenize_full_word (digit_alnum (hd c (by simp)))
    fun x hx => digit_isWordChar (hd x hx)]
  rw [classifyWord_digits_small (by simp) hd hlt]

/-- C1 (witness): `tokenize "123" = [Number 123]`. -/
theorem c1_witness : tokenize ['1', '2', '3'] = .ok [Token.number 123] := by
  have h := c1_digits_number ['1', '2', '3'] (by decide) (by decide) (by decide)
  rw [show digitsToNat ['1', '2', '3'] = 123 from by decide] at h
  exact h

/-- C3: for every non-empty input consisting solely of ASCII digits whose
numeric value exceeds `2 ^ 64 - 1`, the `u64` parse fails, the `f64`
parse succeeds with the value of the text, and `tokenize` succeeds with
the single token `Float` carrying that parse — not `Number`, not
`Identifier`, and not an error. -/
theorem c3_overflow_digits_float (s : List Char) (hne : s ≠ [])
    (hd : ∀ c ∈ s, c.isDigit = true) (hge : 2 ^ 64 ≤ digitsToNat s) :
    parseU64 s = none ∧
    parseF64 s = some (F64.finite (digitsToNat s : ℚ)) ∧
    tokenize s = .ok [Token.float (F64.finite (digitsToNat s : ℚ))] := by
  have hnlt : ¬digitsToNat s < 2 ^ 64 := Nat.not_lt.mpr hge
  refine ⟨?_, parseF64_digits hne hd, ?_⟩
  · rw [parseU64_digits hne hd, if_neg hnlt]
  · obtain ⟨c, rest, rfl⟩ := List.exists_cons_of_ne_nil hne
    rw [tokenize_full_word (digit_alnum (hd c (by simp)))
      fun x hx => digit_isWordChar (hd x hx)]
    rw [classifyWord_digits_big (by simp) hd hnlt]

/-- C3 (witness): twenty nines tokenize to the `Float` carrying
`99999999999999999999`. -/
theorem c3_witness :
    tokenize ['9', '9', '9', '9', '9', '9', '9', '9', '9', '9', '9', '9', '9', '9', '9',
        '9', '9', '9', '9', '9'] =
      .ok [Token.float (F64.finite 99999999999999999999)] := by
  have h := (c3_overflow_digits_float ['9', '9', '9', '9', '9', '9', '9', '9', '9', '9',
    '9', '9', '9', '9', '9', '9', '9', '9', '9', '9'] (by decide) (by decide)
    (by decide)).2.2
  rw [show digitsToNat ['9', '9', '9', '9', '9', '9', '9', '9', '9', '9', '9', '9', '9',
    '9', '9', '9', '9', '9', '9', '9'] = 99999999999999999999 from by decide] at h
  rw [h]
  norm_num

/-- C5 (counterexample): the word `1.` — a trailing dot with no fraction
digits — is accepted by Rust's `f64` grammar (`Count '.'?`), so it
tokenizes as `Float 1.0`, not as an `Identifier`, refuting the claim's
example. -/
theorem c5_counterexample :
    tokenize ['1', '.'] = .ok [Token.float (F64.finite 1)] ∧
    tokenize ['1', '.'] ≠ .ok [Token.identifier ['1', '.']] := by
  have h : tokenize ['1', '.'] = .ok [Token.float (F64.finite 1)] := by
    simp +decide [tokenize, tokenize_multi_char, classifyWord, rustIsAlphanumeric, isWordChar,
      parseU64, parseF64, digitsToNat]
  refine ⟨h, ?_⟩
  rw [h]
  simp

/-- C5 (amended): the word reader consumes the maximal word-character
run and classifies the whole run with first-match-wins precedence —
unsigned 64-bit integer parse, else 64-bit float parse, else exactly
`true`/`false`, else exactly `let`/`import`, else `Identifier` holding
the raw text (never an error).  The claim's example `1.` is wrong (it
parses as a float, see `c5_counterexample`); a word failing both numeric
parses, such as `1.2.3`, does become an `Identifier`.  The concrete
examples: `tokenize "123" = [Number 123]`, `tokenize "1.5" =
[Float 1.5]`, `tokenize "true" = [Bool true]`, `tokenize "let" = [Let]`,
`tokenize "foo_bar" = [Identifier "foo_bar"]`. -/
theorem c5_word_precedence :
    (∀ chars : List Char, tokenize_multi_char chars =
      ([classifyWord (chars.takeWhile isWordChar)], chars.dropWhile isWordChar)) ∧
    (∀ v n, parseU64 v = some n → classifyWord v = Token.number n) ∧
    (∀ v q, parseU64 v = none → parseF64 v = some q → classifyWord v = Token.float q) ∧
    (∀ v, parseU64 v = none → parseF64 v = none →
      classifyWord v =
        if v = ['t', 'r', 'u', 'e'] then Token.bool true
        else if v = ['f', 'a', 'l', 's', 'e'] then Token.bool false
        else if v = ['l', 'e', 't'] then Token.«let»
        else if v = ['i', 'm', 'p', 'o', 'r', 't'] then Token.«import»
        else Token.identifier v) ∧
    tokenize ['1', '2', '3'] = .ok [Token.number 123] ∧
    tokenize ['1', '.', '5'] = .ok [Token.float (F64.finite (3 / 2 : ℚ))] ∧
    tokenize ['t', 'r', 'u', 'e'] = .ok [Token.bool true] ∧
    tokenize ['l', 'e', 't'] = .ok [Token.«let»] ∧
    tokenize ['f', 'o', 'o', '_', 'b', 'a', 'r'] =
      .ok [Token.identifier ['f', 'o', 'o', '_', 'b', 'a', 'r']] ∧
    tokenize ['1', '.', '2', '.', '3'] = .ok [Token.identifier ['1', '.', '2', '.', '3']] := by
  refine ⟨fun chars => rfl, ?_, ?_, ?_, ?_, ?_, ?_, ?_, ?_, ?_⟩
  · intro v n h
    simp only [classifyWord, h]
  · intro v q h1 h2
    simp only [classifyWord, h1, h2]
  · intro v h1 h2
    simp only [classifyWord, h1, h2]
  · simp +decide [tokenize, tokenize_multi_char, classifyWord, rustIsAlphanumeric, isWordChar,
      parseU64, parseF64, digitsToNat]
  · simp +decide [tokenize, tokenize_multi_char, classifyWord, rustIsAlphanumeric, isWordChar,
      parseU64, parseF64, digitsToNat]
    norm_num
  · simp +decide [tokenize, tokenize_multi_char, classifyWord, rustIsAlphanumeric, isWordChar,
      parseU64, parseF64, digitsToNat]
  · simp +decide [tokenize, tokenize_multi_char, classifyWord, rustIsAlphanumeric, isWordChar,
      parseU64, parseF64, digitsToNat]
  · simp +decide [tokenize, tokenize_multi_char, classifyWord, rustIsAlphanumeric, isWordChar,
      parseU64, parseF64, digitsToNat]
  · simp +decide [tokenize, tokenize_multi_char, classifyWord, rustIsAlphanumeric, isWordChar,
      parseU64, parseF64, digitsToNat]

/-- C5 (witness): the integer tier fires on `7`, giving `Number 7`. -/
theorem c5_witness : classifyWord ['7'] = Token.number 7 :=
  c5_word_precedence.2.1 ['7'] 7 (by decide)

/-- C10: the word classifier with the source's guard-then-`unwrap`
structure (`classifyWordGuarded`, where `none` models an `unwrap` panic)
always returns `some` — the `unwrap` after a successful parse check is
unreachable-failing — and `tokenize` always returns an explicit `Ok` or
`Err` value. -/
theorem c10_no_panic :
    (∀ value : List Char, classifyWordGuarded value = some (classifyWord value)) ∧
    (∀ s : List Char, (∃ ts, tokenize s = .ok ts) ∨ (∃ e, tokenize s = .error e)) := by
  constructor
  · intro v
    simp only [classifyWordGuarded, classifyWord]
    cases h1 : parseU64 v with
    | some n => simp [h1]
    | none =>
      cases h2 : parseF64 v with
      | some q => simp [h1, h2]
      | none =>
        simp only [h1, h2, Option.isSome_none, Bool.false_eq_true, if_false]
        split_ifs <;> rfl
  · intro s
    cases h : tokenize s with
    | ok ts => exact Or.inl ⟨ts, rfl⟩
    | error e => exact Or.inr ⟨e, rfl⟩

theorem replace2_cons_ne {a x : Char} (b r : Char) (hx : x ≠ a) (xs : List Char) :
    replace2 a b r (x :: xs) = x :: replace2 a b r xs := by
  cases xs with
  | nil => rfl
  | cons y ys =>
    simp only [replace2]
    rw [if_neg fun h => hx h.1]

theorem replace2_fire (a b r : Char) (rest : List Char) :
    replace2 a b r (a :: b :: rest) = r :: replace2 a b r rest := by
  simp [replace2]

theorem replace2_skip {a b y : Char} (r : Char) (hy1 : y ≠ b) (hy2 : y ≠ a)
    (rest : List Char) :
    replace2 a b r (a :: y :: rest) = a :: y :: replace2 a b r rest := by
  simp only [replace2]
  rw [if_neg fun h => hy1 h.2, replace2_cons_ne b r hy2 rest]

theorem replaceAll_cons (pat rep : List Char) (c : Char) (rest : List Char) :
    replaceAll pat rep (c :: rest) =
      if _h : (pat.isPrefixOf (c :: rest) && !pat.isEmpty) = true then
        rep ++ replaceAll pat rep ((c :: rest).drop pat.length)
      else c :: replaceAll pat rep rest := by
  rw [replaceAll.eq_def]

/-- The generic whole-string replacement specializes, on a two-character
pattern and one-character replacement, to the direct two-character scan. -/
theorem replaceAll_pair (a b r : Char) : (s : List Char) →
    replaceAll [a, b] [r] s = replace2 a b r s
  | [] => by
    rw [replaceAll.eq_def]
    rfl
  | [x] => by
    rw [replaceAll_cons, dif_neg (by simp [List.isPrefixOf])]
    rw [replaceAll.eq_def]
    rfl
  | x :: y :: rest => by
    rw [replaceAll_cons]
    by_cases hxy : x = a ∧ y = b
    · obtain ⟨hx, hy⟩ := hxy
      rw [dif_pos (by simp [List.isPrefixOf, hx, hy])]
      rw [hx, hy, replace2_fire]
      have ih := replaceAll_pair a b r rest
      simp only [List.length_cons, List.length_nil, List.drop_succ_cons, List.drop_zero, ih,
        List.singleton_append]
    · rw [dif_neg (by
        simp only [List.isPrefixOf, Bool.and_eq_true, beq_iff_eq, List.isEmpty_cons,
          Bool.not_false, and_true]
        intro hcon
        exact hxy ⟨hcon.1.symm, hcon.2.symm⟩)]
      have ih := replaceAll_pair a b r (y :: rest)
      rw [ih]
      rw [show replace2 a b r (x :: y :: rest) = x :: replace2 a b r (y :: rest) from by
        simp only [replace2]; rw [if_neg hxy]]
termination_by s => s.length

/-- `handle_string_escapes` is the backslash rule followed by the six
remaining rules, each a two-character whole-string replacement pass. -/
theorem handle_string_escapes_eq (s : List Char) :
    handle_string_escapes s = seqRest (replace2 '\\' '\\' '\\' s) := by
  simp only [handle_string_escapes, escapeRules, List.foldl_cons, List.foldl_nil, seqRest,
    replaceAll_pair]

/-- The six non-backslash rules pass over a head that is not a
backslash. -/
theorem seqRest_cons_ne {x : Char} (hx : x ≠ '\\') (l : List Char) :
    seqRest (x :: l) = x :: seqRest l := by
  simp only [seqRest]
  rw [replace2_cons_ne _ _ hx, replace2_cons_ne _ _ hx, replace2_cons_ne _ _ hx,
    replace2_cons_ne _ _ hx, replace2_cons_ne _ _ hx, replace2_cons_ne _ _ hx]

/-- The six non-backslash rules leave an unrecognized backslash sequence
verbatim. -/
theorem seqRest_other {c : Char} (h1 : c ≠ '\\') (h2 : c ≠ '"') (h3 : c ≠ '\'')
    (h4 : c ≠ 'n') (h5 : c ≠ 'r') (h6 : c ≠ 't') (h7 : c ≠ '0') (l : List Char) :
    seqRest ('\\' :: c :: l) = '\\' :: c :: seqRest l := by
  simp only [seqRest]
  rw [replace2_skip _ h2 h1, replace2_skip _ h3 h1, replace2_skip _ h4 h1,
    replace2_skip _ h5 h1, replace2_skip _ h6 h1, replace2_skip _ h7 h1]

theorem seqRest_quote (l : List Char) : seqRest ('\\' :: '"' :: l) = '"' :: seqRest l := by
  simp only [seqRest]
  rw [replace2_fire, replace2_cons_ne _ _ (by decide), replace2_cons_ne _ _ (by decide),
    replace2_cons_ne _ _ (by decide), replace2_cons_ne _ _ (by decide),
    replace2_cons_ne _ _ (by decide)]

theorem seqRest_apos (l : List Char) : seqRest ('\\' :: '\'' :: l) = '\'' :: seqRest l := by
  simp only [seqRest]
  rw [replace2_skip _ (by decide) (by decide), replace2_fire,
    replace2_cons_ne _ _ (by decide), replace2_cons_ne _ _ (by decide),
    replace2_cons_ne _ _ (by decide), replace2_cons_ne _ _ (by decide)]

theorem seqRest_n (l : List Char) : seqRest ('\\' :: 'n' :: l) = '\n' :: seqRest l := by
  simp only [seqRest]
  rw [replace2_skip _ (by decide) (by decide), replace2_skip _ (by decide) (by decide),
    replace2_fire, replace2_cons_ne _ _ (by decide), replace2_cons_ne _ _ (by decide),
    replace2_cons_ne _ _ (by decide)]

theorem seqRest_r (l : List Char) : seqRest ('\\' :: 'r' :: l) = '\r' :: seqRest l := by
  simp only [seqRest]
  rw [replace2_skip _ (by decide) (by decide), replace2_skip _ (by decide) (by decide),
    replace2_skip _ (by decide) (by decide), replace2_fire,
    replace2_cons_ne _ _ (by decide), replace2_cons_ne _ _ (by decide)]

theorem seqRest_t (l : List Char) : seqRest ('\\' :: 't' :: l) = '\t' :: seqRest l := by
  simp only [seqRest]
  rw [replace2_skip _ (by decide) (by decide), replace2_skip _ (by decide) (by decide),
    replace2_skip _ (by decide) (by decide), replace2_skip _ (by decide) (by decide),
    replace2_fire, replace2_cons_ne _ _ (by decide)]

theorem seqRest_zero (l : List Char) : seqRest ('\\' :: '0' :: l) = '\x00' :: seqRest l := by
  simp only [seqRest]
  rw [replace2_skip _ (by decide) (by decide), replace2_skip _ (by decide) (by decide),
    replace2_skip _ (by decide) (by decide), replace2_skip _ (by decide) (by decide),
    replace2_skip _ (by decide) (by decide), replace2_fire]

theorem scanEscapes_esc {c r : Char} (hd : decodeEscape c = some r) (l : List Char) :
    scanEscapes ('\\' :: c :: l) = r :: scanEscapes l := by
  simp only [scanEscapes, if_pos rfl, hd, if_true]

theorem scanEscapes_none {c : Char} (hd : decodeEscape c = none) (l : List Char) :
    scanEscapes ('\\' :: c :: l) = '\\' :: c :: scanEscapes l := by
  simp only [scanEscapes, if_pos rfl, hd, if_true]

theorem scanEscapes_cons_ne {x : Char} (hx : x ≠ '\\') : (l : List Char) →
    scanEscapes (x :: l) = x :: scanEscapes l
  | [] => rfl
  | c :: l' => by
    simp only [scanEscapes]
    rw [if_neg hx]

theorem decodeEscape_eq_none {c : Char} (h1 : c ≠ '\\') (h2 : c ≠ '"') (h3 : c ≠ '\'')
    (h4 : c ≠ 'n') (h5 : c ≠ 'r') (h6 : c ≠ 't') (h7 : c ≠ '0') :
    decodeEscape c = none := by
  rw [decodeEscape.eq_def]
  split <;> simp_all

theorem noDD_tail {x : Char} {xs : List Char}
    (h : noDoubleBackslash (x :: xs) = true) : noDoubleBackslash xs = true := by
  cases xs with
  | nil => rfl
  | cons y ys =>
    simp only [noDoubleBackslash, Bool.and_eq_true] at h
    exact h.2

theorem noDD_head {x y : Char} {ys : List Char}
    (h : noDoubleBackslash (x :: y :: ys) = true) : ¬(x = '\\' ∧ y = '\\') := by
  rintro ⟨rfl, rfl⟩
  simp [noDoubleBackslash] at h

/-- Under no-double-backslash the backslash rule is the identity. -/
theorem replace2_bs_id : (s : List Char) → noDoubleBackslash s = true →
    replace2 '\\' '\\' '\\' s = s
  | [], _ => rfl
  | [_], _ => rfl
  | x :: y :: rest, h => by
    simp only [replace2]
    rw [if_neg (noDD_head h)]
    rw [replace2_bs_id (y :: rest) (noDD_tail h)]
termination_by s => s.length

/-- Under no-double-backslash, the six sequential rules equal the single
left-to-right scan. -/
theorem seqRest_eq_scan : (s : List Char) → noDoubleBackslash s = true →
    seqRest s = scanEscapes s
  | [], _ => rfl
  | [_], _ => rfl
  | x :: y :: rest, h => by
    by_cases hx : x = '\\'
    · subst hx
      have hy : y ≠ '\\' := fun hy => noDD_head h ⟨rfl, hy⟩
      have hrest : noDoubleBackslash rest = true := noDD_tail (noDD_tail h)
      by_cases e2 : y = '"'
      · subst e2
        rw [seqRest_quote, scanEscapes_esc (show decodeEscape '"' = some '"' from rfl),
          seqRest_eq_scan rest hrest]
      · by_cases e3 : y = '\''
        · subst e3
          rw [seqRest_apos, scanEscapes_esc (show decodeEscape '\'' = some '\'' from rfl),
            seqRest_eq_scan rest hrest]
        · by_cases e4 : y = 'n'
          · subst e4
            rw [seqRest_n, scanEscapes_esc (show decodeEscape 'n' = some '\n' from rfl),
              seqRest_eq_scan rest hrest]
          · by_cases e5 : y = 'r'
            · subst e5
              rw [seqRest_r, scanEscapes_esc (show decodeEscape 'r' = some '\r' from rfl),
                seqRest_eq_scan rest hrest]
            · by_cases e6 : y = 't'
              · subst e6
                rw [seqRest_t, scanEscapes_esc (show decodeEscape 't' = some '\t' from rfl),
                  seqRest_eq_scan rest hrest]
              · by_cases e7 : y = '0'
                · subst e7
                  rw [seqRest_zero, scanEscapes_esc (show decodeEscape '0' = some '\x00' from rfl),
                    seqRest_eq_scan rest hrest]
                · have hdn := decodeEscape_eq_none hy e2 e3 e4 e5 e6 e7
                  rw [seqRest_other hy e2 e3 e4 e5 e6 e7, scanEscapes_none hdn,
                    seqRest_eq_scan rest hrest]
    · rw [seqRest_cons_ne hx, scanEscapes_cons_ne hx, seqRest_eq_scan (y :: rest) (noDD_tail h)]
termination_by s => s.length

/-- C2 (counterexample): on the content `\\n` (backslash, backslash, `n`)
the whole-string substitution yields a single newline — rule 1 turns
`\\n` into `\n`, which rule 4 then re-interprets — while a single
left-to-right scan decoding each escape once yields backslash-`n`.  The
two decoders are not output-equivalent, and an already-substituted
backslash IS re-interpreted by a later rule. -/
theorem c2_counterexample :
    handle_string_escapes ['\\', '\\', 'n'] = ['\n'] ∧
    scanEscapes ['\\', '\\', 'n'] = ['\\', 'n'] ∧
    handle_string_escapes ['\\', '\\', 'n'] ≠ scanEscapes ['\\', '\\', 'n'] := by
  refine ⟨?_, by decide, ?_⟩
  · rw [handle_string_escapes_eq]
    decide
  · rw [handle_string_escapes_eq]
    decide

/-- C2 (amended): on contents with no two adjacent backslashes, the
ordered whole-string substitution of `handle_string_escapes` is
output-equivalent to the single left-to-right scan `scanEscapes`; in
general the equivalence fails (see `c2_counterexample`), because the
backslash produced by the first rule can combine with the following
character into a pattern of a later rule. -/
theorem c2_single_scan_agrees (s : List Char) (h : noDoubleBackslash s = true) :
    handle_string_escapes s = scanEscapes s := by
  rw [handle_string_escapes_eq, replace2_bs_id s h]
  exact seqRest_eq_scan s h

/-- C2 (witness): on `a\nb` (no adjacent backslashes) both decoders give
`a`, newline, `b`. -/
theorem c2_witness :
    noDoubleBackslash ['a', '\\', 'n', 'b'] = true ∧
    handle_string_escapes ['a', '\\', 'n', 'b'] = scanEscapes ['a', '\\', 'n', 'b'] :=
  ⟨by decide, c2_single_scan_agrees ['a', '\\', 'n', 'b'] (by decide)⟩

/-- C4: the escape decoder is exactly the fixed-order sequence of global
non-overlapping two-character replacements `\\`→`\`, `\"`→`"`, `\'`→`'`,
`\n`→newline, `\r`→carriage-return, `\t`→tab, `\0`→NUL, each applied to
the whole string before the next rule runs; and a backslash followed by
a character starting no listed sequence is left verbatim, both
characters retained (the decoder is total — never an error). -/
theorem c4_escape_rules :
    (∀ s : List Char, handle_string_escapes s =
      replace2 '\\' '0' '\x00' (replace2 '\\' 't' '\t' (replace2 '\\' 'r' '\r'
        (replace2 '\\' 'n' '\n' (replace2 '\\' '\'' '\'' (replace2 '\\' '"' '"'
          (replace2 '\\' '\\' '\\' s))))))) ∧
    (∀ (c : Char) (s : List Char), c ∉ ['\\', '"', '\'', 'n', 'r', 't', '0'] →
      handle_string_escapes ('\\' :: c :: s) = '\\' :: c :: handle_string_escapes s) := by
  constructor
  · intro s
    rw [handle_string_escapes_eq]
    rfl
  · intro c s hc
    simp only [List.mem_cons, not_or] at hc
    obtain ⟨h1, h2, h3, h4, h5, h6, h7, -⟩ := hc
    rw [handle_string_escapes_eq, handle_string_escapes_eq]
    rw [replace2_skip _ h1 h1, seqRest_other h1 h2 h3 h4 h5 h6 h7]

/-- C4 (witness): the unrecognized sequence `\q` is kept verbatim. -/
theorem c4_witness : handle_string_escapes ['\\', 'q'] = ['\\', 'q'] := by
  have h := c4_escape_rules.2 'q' [] (by decide)
  rw [show handle_string_escapes ([] : List Char) = [] from by
    rw [handle_string_escapes_eq]
    rfl] at h
  exact h

/-- C8: a successfully scanned string literal wraps the escape-decoded
verbatim text between the quotes: scanning quote-free content `v`
followed by a closing quote returns exactly `v` with the cursor after
the quote (newlines in `v` included — strings span lines), and the
resulting token is `String` of the decoded content; the empty literal
gives `String ""`, and a literal containing a newline keeps it. -/
theorem c8_string_token :
    (∀ (v r : List Char), '"' ∉ v → scanStringBody (v ++ '"' :: r) = .ok (v, r)) ∧
    (∀ (c : Char) (s v r : List Char), scanStringBody s = .ok (v, r) →
      tokenize_string (c :: s) = .ok (Token.string (handle_string_escapes v), r)) ∧
    tokenize ['"', '"'] = .ok [Token.string []] ∧
    tokenize ['"', 'a', '\n', 'b', '"'] = .ok [Token.string ['a', '\n', 'b']] := by
  have hscan : ∀ (v r : List Char), '"' ∉ v → scanStringBody (v ++ '"' :: r) = .ok (v, r) := by
    intro v r hv
    have hall : ∀ a ∈ v, (decide (a ≠ '"')) = true := by
      intro a ha
      simp only [decide_eq_true_eq]
      exact fun e => hv (e ▸ ha)
    simp only [scanStringBody]
    rw [List.dropWhile_append_of_pos hall, List.takeWhile_append_of_pos hall]
    rw [List.dropWhile_cons_of_neg (by simp), List.takeWhile_cons_of_neg (by simp)]
    simp
  refine ⟨hscan, ?_, ?_, ?_⟩
  · intro c s v r h
    simp only [tokenize_string, h]
  · have hts : tokenize_string ['"', '"'] = .ok (Token.string [], []) := by
      simp +decide [tokenize_string, scanStringBody, handle_string_escapes, escapeRules,
        replaceAll]
    rw [tokenize_quote_ok hts, tokenize_nil]
  · have hts : tokenize_string ['"', 'a', '\n', 'b', '"'] =
        .ok (Token.string ['a', '\n', 'b'], []) := by
      simp +decide [tokenize_string, scanStringBody, handle_string_escapes, escapeRules,
        replaceAll]
    rw [tokenize_quote_ok hts, tokenize_nil]

/-- C8 (witness): scanning the content `x` against a closing quote. -/
theorem c8_witness : scanStringBody ['x', '"'] = .ok (['x'], []) := by
  have h := c8_string_token.1 ['x'] [] (by decide)
  simpa using h

/-- C9: inputs of only whitespace and line comments produce `Ok []`; the
empty input gives `Ok []`; and `// comment\nlet x` gives
`[Let, Identifier "x"]` — comment and newline produce no tokens. -/
theorem c9_ws_comments :
    (∀ s : List Char, WsComments s → tokenize s = .ok []) ∧
    tokenize [] = .ok [] ∧
    tokenize ['/', '/', ' ', 'c', 'o', 'm', 'm', 'e', 'n', 't', '\n', 'l', 'e', 't', ' ',
        'x'] =
      .ok [Token.«let», Token.identifier ['x']] := by
  refine ⟨?_, tokenize_nil, ?_⟩
  · intro s h
    induction h with
    | nil => exact tokenize_nil
    | ws hc _ ih => rw [tokenize_ws _ hc]; exact ih
    | comment _ ih => rw [tokenize_comment]; exact ih
  · simp +decide [tokenize, tokenize_multi_char, classifyWord, rustIsAlphanumeric, isWordChar,
      parseU64, parseF64, digitsToNat]

/-- C9 (witness): a single space produces no tokens. -/
theorem c9_witness : tokenize [' '] = .ok [] :=
  c9_ws_comments.1 [' '] (WsComments.ws (Or.inl rfl) WsComments.nil)

/-- Generic bound: `dropWhile` never lengthens a list. -/
theorem dropWhile_le_length {α : Type} (p : α → Bool) (l : List α) :
    (l.dropWhile p).length ≤ l.length := by
  induction l with
  | nil => exact Nat.le_refl 0
  | cons a t ih =>
    rw [List.dropWhile_cons]
    split
    · exact Nat.le_trans ih (Nat.le_succ _)
    · exact Nat.le_refl _

/-- A successful string-body scan consumes at least the closing quote. -/
theorem scanStringBody_ok_length {s v r : List Char}
    (h : scanStringBody s = .ok (v, r)) : r.length < s.length := by
  simp only [scanStringBody] at h
  split at h
  · rename_i hd tl hdrop
    rw [Except.ok.injEq, Prod.mk.injEq] at h
    obtain ⟨-, hr⟩ := h
    subst hr
    have hle := dropWhile_le_length (fun c => decide (c ≠ '"')) s
    rw [hdrop] at hle
    simp only [List.length_cons] at hle
    omega
  · exact absurd h (by simp)

/-- The string-body scan fails (necessarily with the unclosed-string
message) exactly when no closing quote exists in the remaining input. -/
theorem scanStringBody_error_iff (s : List Char) :
    scanStringBody s = .error "Unclosed string literal" ↔ '"' ∉ s := by
  simp only [scanStringBody]
  constructor
  · intro h
    split at h
    · exact absurd h (by simp)
    · rename_i hdrop
      intro hq
      have := List.dropWhile_eq_nil_iff.mp hdrop '"' hq
      simp at this
  · intro h
    rw [List.dropWhile_eq_nil_iff.mpr ?_]
    · intro x hx
      simp only [decide_eq_true_eq]
      exact fun e => h (e ▸ hx)

/-- Every error of the string-body scan carries the unclosed-string
message, and means no closing quote exists. -/
theorem scanStringBody_error_inv {s : List Char} {e : String}
    (h : scanStringBody s = .error e) : e = "Unclosed string literal" ∧ '"' ∉ s := by
  have hmsg : e = "Unclosed string literal" := by
    simp only [scanStringBody] at h
    split at h
    · exact absurd h (by simp)
    · rw [Except.error.injEq] at h
      exact h.symm
  subst hmsg
  exact ⟨rfl, (scanStringBody_error_iff s).mp h⟩

/-- Inversion: if prepending a token to a sub-result gives an error, the
sub-computation itself errored with the same message. -/
theorem cons_result_error {x : Except String (List Token)} {g : List Token → List Token}
    {m : String}
    (h : (match x with
          | .ok ts => Except.ok (g ts)
          | .error e => .error e) = .error m) : x = .error m := by
  cases x with
  | ok ts => exact absurd h (by simp)
  | error e => simpa using h

/-- There is one fixed token per single-character dispatch arm. -/
theorem tokenize_single {c : Char} (rest : List Char)
    (h : c ∈ ['(', ')', '[', ']', '{', '}', '+', '-', '*', '=']) :
    ∃ t : Token, tokenize (c :: rest) =
      match tokenize rest with
      | .ok ts => .ok (t :: ts)
      | .error e => .error e := by
  fin_cases h
  · exact ⟨Token.lparen, by rw [tokenize_cons]; rfl⟩
  · exact ⟨Token.rparen, by rw [tokenize_cons]; rfl⟩
  · exact ⟨Token.lbracket, by rw [tokenize_cons]; rfl⟩
  · exact ⟨Token.rbracket, by rw [tokenize_cons]; rfl⟩
  · exact ⟨Token.lbrace, by rw [tokenize_cons]; rfl⟩
  · exact ⟨Token.rbrace, by rw [tokenize_cons]; rfl⟩
  · exact ⟨Token.plus, by rw [tokenize_cons]; rfl⟩
  · exact ⟨Token.minus, by rw [tokenize_cons]; rfl⟩
  · exact ⟨Token.multiply, by rw [tokenize_cons]; rfl⟩
  · exact ⟨Token.equals, by rw [tokenize_cons]; rfl⟩

/-- Errors propagate backward along one dispatch step: if the loop
continues from `s` to `t` and tokenizing `t` fails, tokenizing `s` fails
with the same message. -/
theorem step_error {s t : List Char} {e : String} (hst : Step s t)
    (h : tokenize t = .error e) : tokenize s = .error e := by
  cases hst with
  | ws hc =>
    rw [tokenize_ws _ hc]
    exact h
  | comment =>
    rw [tokenize_comment]
    exact h
  | slash hh =>
    rw [tokenize_slash hh, h]
  | single hc =>
    obtain ⟨t0, ht0⟩ := tokenize_single _ hc
    rw [ht0, h]
  | @str rest v _ hsb =>
    have hts : tokenize_string ('"' :: rest) =
        .ok (Token.string (handle_string_escapes v), t) := by
      simp only [tokenize_string, hsb]
    rw [tokenize_quote_ok hts, h]
  | @word c rest hw =>
    rw [tokenize_word hw]
    simp only [tokenize_multi_char] at h ⊢
    rw [h]

/-- Errors propagate backward along any number of dispatch steps. -/
theorem reaches_error {s t : List Char} {e : String} (hr : Reaches s t)
    (h : tokenize t = .error e) : tokenize s = .error e := by
  induction hr using Relation.ReflTransGen.head_induction_on with
  | refl => exact h
  | head hstep _ ih => exact step_error hstep ih

/-- Bounded-length auxiliary for claim C6: the unclosed-string error
implies the dispatch loop reaches a quote whose remainder has no closing
quote. -/
theorem unclosed_of_error_aux : (n : Nat) → ∀ s : List Char, s.length ≤ n →
    tokenize s = .error "Unclosed string literal" →
    ∃ rest : List Char, Reaches s ('"' :: rest) ∧ '"' ∉ rest
  | n, [], _, h => absurd h (by rw [tokenize_nil]; simp)
  | 0, c :: rest, hlen, h => absurd hlen (by simp)
  | n + 1, c :: rest, hlen, h => by
    have hlen' : rest.length ≤ n := by
      simp only [List.length_cons] at hlen
      omega
    by_cases hws : c = ' ' ∨ c = '\t' ∨ c = '\n'
    · rw [tokenize_ws _ hws] at h
      obtain ⟨r, hr, hq⟩ := unclosed_of_error_aux n rest hlen' h
      exact ⟨r, Relation.ReflTransGen.head (Step.ws hws) hr, hq⟩
    · by_cases hsl : c = '/'
      · subst hsl
        by_cases hcm : rest.head? = some '/'
        · obtain ⟨rest2, rfl⟩ : ∃ rest2, rest = '/' :: rest2 := by
            cases rest with
            | nil => simp at hcm
            | cons a t2 =>
              simp only [List.head?_cons, Option.some.injEq] at hcm
              exact ⟨t2, by rw [hcm]⟩
          rw [tokenize_comment] at h
          have hlen2 : (rest2.dropWhile fun c => c ≠ '\n').length ≤ n :=
            Nat.le_trans (dropWhile_le_length _ _) (by simp at hlen'; omega)
          obtain ⟨r, hr, hq⟩ := unclosed_of_error_aux n _ hlen2 h
          exact ⟨r, Relation.ReflTransGen.head Step.comment hr, hq⟩
        · rw [tokenize_slash hcm] at h
          have h' := cons_result_error h
          obtain ⟨r, hr, hq⟩ := unclosed_of_error_aux n rest hlen' h'
          exact ⟨r, Relation.ReflTransGen.head (Step.slash hcm) hr, hq⟩
      · by_cases hsg : c ∈ ['(', ')', '[', ']', '{', '}', '+', '-', '*', '=']
        · obtain ⟨t0, ht0⟩ := tokenize_single rest hsg
          rw [ht0] at h
          have h' := cons_result_error h
          obtain ⟨r, hr, hq⟩ := unclosed_of_error_aux n rest hlen' h'
          exact ⟨r, Relation.ReflTransGen.head (Step.single hsg) hr, hq⟩
        · by_cases hqt : c = '"'
          · subst hqt
            cases hsb : scanStringBody rest with
            | ok vr =>
              obtain ⟨v, r⟩ := vr
              have hts : tokenize_string ('"' :: rest) =
                  .ok (Token.string (handle_string_escapes v), r) := by
                simp only [tokenize_string, hsb]
              rw [tokenize_quote_ok hts] at h
              have h' := cons_result_error h
              have hrlen : r.length ≤ n :=
                Nat.le_trans (Nat.le_of_lt (scanStringBody_ok_length hsb)) hlen'
              obtain ⟨r2, hr, hq⟩ := unclosed_of_error_aux n r hrlen h'
              exact ⟨r2, Relation.ReflTransGen.head (Step.str hsb) hr, hq⟩
            | error e =>
              have hts : tokenize_string ('"' :: rest) = .error e := by
                simp only [tokenize_string, hsb]
              rw [tokenize_quote_err hts] at h
              rw [Except.error.injEq] at h
              subst h
              exact ⟨rest, Relation.ReflTransGen.refl, (scanStringBody_error_inv hsb).2⟩
          · by_cases hw : (rustIsAlphanumeric c || c = '_') = true
            · rw [tokenize_word hw] at h
              simp only [tokenize_multi_char] at h
              have h' := cons_result_error (g := fun ts =>
                [classifyWord ((c :: rest).takeWhile isWordChar)] ++ ts) h
              have hdlen : ((c :: rest).dropWhile isWordChar).length ≤ n := by
                have hwc : isWordChar c = true := wordChar_of_alnum hw
                rw [List.dropWhile_cons_of_pos hwc]
                exact Nat.le_trans (dropWhile_le_length _ _) hlen'
              obtain ⟨r, hr, hq⟩ := unclosed_of_error_aux n _ hdlen h'
              refine ⟨r, Relation.ReflTransGen.head (Step.word hw) ?_, hq⟩
              simpa only [tokenize_multi_char] using hr
            · have hne : tokenize (c :: rest) =
                  .error (String.push "Unexpected token: " c) := by
                simp only [List.mem_cons, not_or] at hsg
                obtain ⟨g1, g2, g3, g4, g5, g6, g7, g8, g9, g10, -⟩ := hsg
                exact tokenize_err rest hws hsl g1 g2 g3 g4 g5 g6 g7 g8 g9 g10 hqt
                  (by simpa using hw)
              rw [hne, Except.error.injEq] at h
              have hlen2 := congrArg String.length h
              rw [String.length_push] at hlen2
              exact absurd hlen2 (by decide)

/-- C6: `tokenize` fails with the message `Unclosed string literal` if
and only if the dispatch loop reaches a cursor at a double quote whose
remaining input contains no closing double quote (the quote is opened
and the input is exhausted before a matching close); in particular
`tokenize "\"unterminated"` fails with that error. -/
theorem c6_unclosed_iff :
    (∀ s : List Char, tokenize s = .error "Unclosed string literal" ↔
      ∃ rest : List Char, Reaches s ('"' :: rest) ∧ '"' ∉ rest) ∧
    tokenize ('"' :: ['u', 'n', 't', 'e', 'r', 'm', 'i', 'n', 'a', 't', 'e', 'd']) =
      .error "Unclosed string literal" := by
  have hbase : ∀ rest : List Char, '"' ∉ rest →
      tokenize ('"' :: rest) = .error "Unclosed string literal" := by
    intro rest hq
    have hsb : scanStringBody rest = .error "Unclosed string literal" :=
      (scanStringBody_error_iff rest).mpr hq
    exact tokenize_quote_err (by simp only [tokenize_string, hsb])
  constructor
  · intro s
    constructor
    · exact fun h => unclosed_of_error_aux s.length s (Nat.le_refl _) h
    · rintro ⟨rest, hr, hq⟩
      exact reaches_error hr (hbase rest hq)
  · exact hbase ['u', 'n', 't', 'e', 'r', 'm', 'i', 'n', 'a', 't', 'e', 'd'] (by decide)

/-- C6 (witness): the iff instantiated at the concrete input `"x`. -/
theorem c6_witness : tokenize ['"', 'x'] = .error "Unclosed string literal" :=
  (c6_unclosed_iff.1 ['"', 'x']).mpr ⟨['x'], Relation.ReflTransGen.refl, by decide⟩

/-- C7: whenever the dispatch loop reaches a character that is not
whitespace, not a slash, not one of the fixed bracket/operator
characters, not a double quote, and not alphanumeric-or-underscore,
`tokenize` fails with the message naming that character; in particular
`tokenize "@"` fails naming `@`. -/
theorem c7_unexpected_char :
    (∀ (s : List Char) (c : Char) (rest : List Char), Reaches s (c :: rest) →
      ¬(c = ' ' ∨ c = '\t' ∨ c = '\n') → c ≠ '/' →
      c ∉ ['(', ')', '[', ']', '{', '}', '+', '-', '*', '='] → c ≠ '"' →
      (rustIsAlphanumeric c || c = '_') = false →
      tokenize s = .error (String.push "Unexpected token: " c)) ∧
    tokenize ['@'] = .error "Unexpected token: @" := by
  have hbase : ∀ (c : Char) (rest : List Char), ¬(c = ' ' ∨ c = '\t' ∨ c = '\n') →
      c ≠ '/' → c ∉ ['(', ')', '[', ']', '{', '}', '+', '-', '*', '='] → c ≠ '"' →
      (rustIsAlphanumeric c || c = '_') = false →
      tokenize (c :: rest) = .error (String.push "Unexpected token: " c) := by
    intro c rest h1 h2 h3 h4 h5
    simp only [List.mem_cons, not_or] at h3
    obtain ⟨g1, g2, g3, g4, g5, g6, g7, g8, g9, g10, -⟩ := h3
    exact tokenize_err rest h1 h2 g1 g2 g3 g4 g5 g6 g7 g8 g9 g10 h4 h5
  constructor
  · intro s c rest hr h1 h2 h3 h4 h5
    exact reaches_error hr (hbase c rest h1 h2 h3 h4 h5)
  · have h := hbase '@' [] (by decide) (by decide) (by decide) (by decide) (by decide)
    rw [h]
    rfl

/-- C7 (witness): the universal statement instantiated at `@`. -/
theorem c7_witness : tokenize ['@'] = .error (String.push "Unexpected token: " '@') :=
  c7_unexpected_char.1 ['@'] '@' [] Relation.ReflTransGen.refl (by decide) (by decide)
    (by decide) (by decide) (by decide)
